import Mathlib

/-!
Verification of the theme-color extraction and application pipeline of this
repository (`theme_extractor.py` together with the generated
`theme_config.py`).  The Python objects are shallowly embedded: a zip package
is an association list from member names to member contents, an XML document
is a finite tree of elements, and a Python dict is an insertion-ordered
association list with unique keys.
-/

/-- Characters of a string lowercased, modelling Python `str.lower` on the
ASCII member names involved. -/
def lowerStr (s : String) : String := String.mk (s.data.map Char.toLower)

/-- Characters of a string uppercased, modelling Python `str.upper`. -/
def upperStr (s : String) : String := String.mk (s.data.map Char.toUpper)

/-- `listStartsWith p l` holds when `p` is an initial segment of `l`. -/
def listStartsWith (p s : List Char) : Bool :=
  match p, s with
  | [], _ => true
  | _ :: _, [] => false
  | x :: xs, y :: ys => x == y && listStartsWith xs ys

/-- Model of Python `str.endswith`. -/
def listEndsWith (p l : List Char) : Bool := listStartsWith p.reverse l.reverse

/-- Model of Python's `in` substring test on strings. -/
def listContainsSub (needle : List Char) : List Char → Bool
  | [] => listStartsWith needle []
  | hay@(_ :: t) => listStartsWith needle hay || listContainsSub needle t

/-- Membership of a name in a zip namelist, modelling `x in zf.namelist()`. -/
def containsStr (x : String) : List String → Bool
  | [] => false
  | y :: t => if y = x then true else containsStr x t

/-- First element satisfying `p`, modelling `[f for f in l if p(f)][0]`
with `none` for the empty filter result. -/
def firstMatch (p : String → Bool) : List String → Option String
  | [] => none
  | f :: rest => if p f then some f else firstMatch p rest

/-- First binding of a key in an association list; on unique-key dicts this
is the dict lookup. -/
def assocLookup {α : Type} (n : String) : List (String × α) → Option α
  | [] => none
  | (k, v) :: t => if k = n then some v else assocLookup n t

/-- Python-dict insertion: an existing key keeps its position and receives
the new value, a fresh key is appended at the end. -/
def dictInsert (k v : String) : List (String × String) → List (String × String)
  | [] => [(k, v)]
  | (k', v') :: t => if k' = k then (k, v) :: t else (k', v') :: dictInsert k v t

/-- Model of `dict.get(k, dflt)`. -/
def dGet (d : List (String × String)) (k dflt : String) : String :=
  match assocLookup k d with
  | some v => v
  | none => dflt

/-- An XML element: its tag (possibly carrying a `\x7bnamespace\x7d` prefix),
its attributes, and its child elements. -/
inductive Xml : Type where
  | elem (tag : String) (attrs : List (String × String)) (children : List Xml)

def Xml.tag : Xml → String
  | .elem t _ _ => t

def Xml.attrs : Xml → List (String × String)
  | .elem _ a _ => a

def Xml.children : Xml → List Xml
  | .elem _ _ c => c

/-- Local tag name: the part of the tag after the last closing brace,
mirroring the `elem.tag.split(...)[-1]` namespace stripping. -/
def localName (t : String) : String :=
  String.mk ((t.data.reverse.takeWhile (fun c => c != '\x7d')).reverse)

/-- Model of `elem.get(key, default)` on an attribute dict. -/
def attrGet (a : List (String × String)) (k dflt : String) : String :=
  match assocLookup k a with
  | some v => v
  | none => dflt

mutual
/-- Document-order (pre-order) element sequence, mirroring `Element.iter()`:
the element itself, then every descendant, children left to right. -/
def iterElems : Xml → List Xml
  | .elem t a cs => .elem t a cs :: iterElemsList cs

def iterElemsList : List Xml → List Xml
  | [] => []
  | c :: rest => iterElems c ++ iterElemsList rest
end

/-- The twelve fixed raw color role names (`ThemeColorExtractor.COLOR_NAMES`). -/
def COLOR_NAMES : List String :=
  ["dk1", "lt1", "dk2", "lt2",
   "accent1", "accent2", "accent3", "accent4", "accent5", "accent6",
   "hlink", "folHlink"]

/-- Model of `ThemeColorExtractor._extract_color_value`: scan the role
element's children in order; the first `srgbClr` child yields its `val`
attribute uppercased, the first `sysClr` child yields its `lastClr`
attribute uppercased, and if no child is of either form the result is
`none`. -/
def extract_color_value : List Xml → Option String
  | [] => none
  | c :: rest =>
    if localName c.tag = "srgbClr" then some (upperStr (attrGet c.attrs "val" ""))
    else if localName c.tag = "sysClr" then some (upperStr (attrGet c.attrs "lastClr" ""))
    else extract_color_value rest

/-- Model of `_parse_color_scheme`: fold the scheme's children into the color
dict; only children whose local tag is a role name contribute, and falsy
values (`none` or the empty string) are skipped. -/
def parse_color_scheme (children : List Xml) (d : List (String × String)) :
    List (String × String) :=
  children.foldl
    (fun d c =>
      if COLOR_NAMES.contains (localName c.tag) then
        match extract_color_value c.children with
        | some v => if v = "" then d else dictInsert (localName c.tag) v d
        | none => d
      else d) d

/-- Model of `_parse_font_scheme`: for each `majorFont`/`minorFont` child,
record the `typeface` attribute of every `latin` grandchild when nonempty. -/
def parse_font_scheme (children : List Xml) (d : List (String × String)) :
    List (String × String) :=
  children.foldl
    (fun d c =>
      if localName c.tag = "majorFont" ∨ localName c.tag = "minorFont" then
        c.children.foldl
          (fun d fc =>
            if localName fc.tag = "latin" then
              let tf := attrGet fc.attrs "typeface" ""
              if tf = "" then d else dictInsert (localName c.tag) tf d
            else d) d
      else d) d

/-- Model of `_parse_theme_elements`: walk every element in document order,
feeding each `clrScheme` into the color dict and each `fontScheme` into the
font dict. -/
def parse_theme_elements (root : Xml) :
    List (String × String) × List (String × String) :=
  (iterElems root).foldl
    (fun acc e =>
      if localName e.tag = "clrScheme" then (parse_color_scheme e.children acc.1, acc.2)
      else if localName e.tag = "fontScheme" then (acc.1, parse_font_scheme e.children acc.2)
      else acc) ([], [])

/-- The member-name heuristic of `_find_theme_path`: the lowercased name
contains `"theme"` and the name ends with `".xml"`. -/
def themeHeuristic (f : String) : Bool :=
  listContainsSub "theme".data (lowerStr f).data && listEndsWith ".xml".data f.data

/-- Model of `ThemeColorExtractor._find_theme_path`. -/
def find_theme_path (names : List String) : Option String :=
  if containsStr "ppt/theme/theme1.xml" names then some "ppt/theme/theme1.xml"
  else firstMatch themeHeuristic names

/-- A zip member's content: a parsed XML document, or opaque bytes for
members the pipeline never parses. -/
inductive Content : Type where
  | xml (root : Xml)
  | bin (bytes : List Nat)

/-- Failures of `ThemeColorExtractor.extract`: `themeNotFound` models the
`FileNotFoundError` raised when no member matches either resolution rule,
`badThemeMember` models an XML parse error on the located member. -/
inductive ExtractErr : Type where
  | themeNotFound
  | badThemeMember
deriving DecidableEq

/-- Model of `ThemeColorExtractor.extract`: locate the theme member, read the
theme display name from the root's `name` attribute (default
`"Unknown Theme"`), and parse colors and fonts. -/
def extract (pkg : List (String × Content)) :
    Except ExtractErr (String × List (String × String) × List (String × String)) :=
  match find_theme_path (pkg.map Prod.fst) with
  | none => .error .themeNotFound
  | some p =>
    match assocLookup p pkg with
    | some (.xml root) => .ok (attrGet root.attrs "name" "Unknown Theme", parse_theme_elements root)
    | _ => .error .badThemeMember

/-- Model of `ThemeColorExtractor.get_color_mapping`. -/
def get_color_mapping (tc : List (String × String)) : List (String × String) :=
  [("primary_dark", dGet tc "dk1" "000000"),
   ("primary_light", dGet tc "lt1" "FFFFFF"),
   ("secondary_dark", dGet tc "dk2" "1F497D"),
   ("secondary_light", dGet tc "lt2" "EEECE1"),
   ("accent1", dGet tc "accent1" "4F81BD"),
   ("accent2", dGet tc "accent2" "C0504D"),
   ("accent3", dGet tc "accent3" "9BBB59"),
   ("accent4", dGet tc "accent4" "8064A2"),
   ("accent5", dGet tc "accent5" "4BACC6"),
   ("accent6", dGet tc "accent6" "F79646"),
   ("hyperlink", dGet tc "hlink" "0000FF"),
   ("followed_hyperlink", dGet tc "folHlink" "800080")]

/-- The drawingml namespace in ElementTree's braced-prefix form, as used by
`ThemeApplier._update_color_scheme`. -/
def aNS : String := "\x7bhttp://schemas.openxmlformats.org/drawingml/2006/main\x7d"

/-- Model of `mapping[k]` on the (always-total) semantic mapping dict. -/
def mGet (m : List (String × String)) (k : String) : String :=
  (assocLookup k m).getD ""

/-- Lines emitted by `_format_dict_items` at indent 4. -/
def fmtDictLines (d : List (String × String)) : List String :=
  d.map (fun kv => "    \"" ++ kv.1 ++ "\": \"" ++ kv.2 ++ "\",")

/-- The `# ===...===` ruler line of the generated module: a hash mark, a
space, and 77 equals signs. -/
def rulerLine : String := "# " ++ String.mk (List.replicate 77 '=')

/-- The generated Python module of `generate_python_config`, as its list of
lines; the timestamp occupies exactly line index 8. -/
def pyConfigLines (tmplName themeName : String)
    (colors fonts : List (String × String)) (ts : String) : List String :=
  let mapping := get_color_mapping colors
  ["#!/usr/bin/env python3",
   "\"\"\"",
   "theme_config.py",
   "===============",
   "Auto-generated PowerPoint theme colors extracted from template.",
   "",
   "Source Template: " ++ tmplName,
   "Theme Name: " ++ themeName,
   "Extracted: " ++ ts,
   "",
   "DO NOT EDIT MANUALLY - Regenerate using:",
   "    python theme_extractor.py " ++ tmplName,
   "\"\"\"",
   "",
   "from typing import Dict, Tuple",
   "",
   rulerLine,
   "# RAW THEME COLORS (as extracted from template)",
   rulerLine,
   "",
   "THEME_COLORS_RAW: Dict[str, str] = \x7b"]
  ++ fmtDictLines colors ++
  ["\x7d",
   "",
   rulerLine,
   "# SEMANTIC COLOR MAPPING",
   rulerLine,
   "",
   "THEME_COLORS: Dict[str, str] = \x7b"]
  ++ fmtDictLines mapping ++
  ["\x7d",
   "",
   rulerLine,
   "# ACCENT COLOR LIST (for charts and data visualization)",
   rulerLine,
   "",
   "ACCENT_COLORS: Tuple[str, ...] = (",
   "    \"#" ++ mGet mapping "accent1" ++ "\",",
   "    \"#" ++ mGet mapping "accent2" ++ "\",",
   "    \"#" ++ mGet mapping "accent3" ++ "\",",
   "    \"#" ++ mGet mapping "accent4" ++ "\",",
   "    \"#" ++ mGet mapping "accent5" ++ "\",",
   "    \"#" ++ mGet mapping "accent6" ++ "\",",
   ")",
   "",
   rulerLine,
   "# FONT SCHEME",
   rulerLine,
   "",
   "THEME_FONTS: Dict[str, str] = \x7b"]
  ++ fmtDictLines fonts ++
  ["\x7d",
   "",
   rulerLine,
   "# CONVENIENCE CONSTANTS",
   rulerLine,
   "",
   "# Primary brand color (accent1)",
   "PRIMARY_COLOR = \"#" ++ mGet mapping "accent1" ++ "\"",
   "",
   "# Background colors",
   "DARK_BACKGROUND = \"#" ++ mGet mapping "primary_dark" ++ "\"",
   "LIGHT_BACKGROUND = \"#" ++ mGet mapping "primary_light" ++ "\"",
   "",
   "# Text colors",
   "TEXT_ON_LIGHT = \"#" ++ mGet mapping "primary_dark" ++ "\"",
   "TEXT_ON_DARK = \"#" ++ mGet mapping "primary_light" ++ "\"",
   "",
   rulerLine,
   "# HELPER FUNCTIONS",
   rulerLine,
   "",
   "def get_accent_color(index: int) -> str:",
   "    \"\"\"Get accent color by index (0-5), with wraparound.\"\"\"",
   "    return ACCENT_COLORS[index % len(ACCENT_COLORS)]",
   "",
   "",
   "def hex_to_rgb(hex_color: str) -> Tuple[int, int, int]:",
   "    \"\"\"Convert hex color to RGB tuple.\"\"\"",
   "    h = hex_color.lstrip(\x27#\x27)",
   "    return tuple(int(h[i:i+2], 16) for i in (0, 2, 4))",
   "",
   "",
   "def rgb_to_hex(r: int, g: int, b: int) -> str:",
   "    \"\"\"Convert RGB values to hex color string.\"\"\"",
   "    return f\"\x7br:02X\x7d\x7bg:02X\x7d\x7bb:02X\x7d\""]

/-- A JSON value of the generated sidecar: a string or a flat string dict. -/
inductive JVal : Type where
  | str (s : String)
  | dict (d : List (String × String))
deriving DecidableEq

/-- The top-level fields of `generate_json_config`, in emission order. -/
def jsonConfigFields (tmplPath themeName : String)
    (colors fonts : List (String × String)) (ts : String) : List (String × JVal) :=
  [("source_template", .str tmplPath),
   ("theme_name", .str themeName),
   ("extracted_date", .str ts),
   ("raw_colors", .dict colors),
   ("semantic_mapping", .dict (get_color_mapping colors)),
   ("fonts", .dict fonts)]

/-- The CLI extraction flow: extract, then emit the Python module and the
JSON sidecar; on extraction failure nothing is emitted. -/
def run_extraction (pkg : List (String × Content)) (tmplName tmplPath ts1 ts2 : String) :
    Except ExtractErr (List String × List (String × JVal)) :=
  match extract pkg with
  | .error e => .error e
  | .ok (name, colors, fonts) =>
    .ok (pyConfigLines tmplName name colors fonts ts1,
         jsonConfigFields tmplPath name colors fonts ts2)

/-- The accent tuple of the generated `theme_config.py` in the repository. -/
def ACCENT_COLORS : List String :=
  ["#00325C", "#1B9CD0", "#8637BA", "#179963", "#FED141", "#C81A28"]

/-- Model of `theme_config.get_accent_color`: Python indexing by
`index % len(ACCENT_COLORS)` (Python `%` on a positive modulus is the
mathematical, always-nonnegative remainder). -/
def get_accent_color (i : Int) : String :=
  ACCENT_COLORS.getD (i % (ACCENT_COLORS.length : Int)).toNat ""

/-- Value of a single hex digit, mirroring what `int(s, 16)` accepts per
character (the ASCII ranges `0`-`9`, `a`-`f`, `A`-`F`). -/
def hexVal? (c : Char) : Option Nat :=
  if 48 ≤ c.toNat ∧ c.toNat ≤ 57 then some (c.toNat - 48)
  else if 97 ≤ c.toNat ∧ c.toNat ≤ 102 then some (c.toNat - 87)
  else if 65 ≤ c.toNat ∧ c.toNat ≤ 70 then some (c.toNat - 55)
  else none

def parseHexGo : List Char → Nat → Option Nat
  | [], acc => some acc
  | c :: rest, acc =>
    match hexVal? c with
    | some v => parseHexGo rest (16 * acc + v)
    | none => none

/-- Model of `int(s, 16)` on digit strings: `none` on the empty string or on
any non-hex-digit character (a `ValueError` in Python). -/
def parseHexList (l : List Char) : Option Nat :=
  match l with
  | [] => none
  | _ => parseHexGo l 0

/-- Python slice `l[i:j]` for `i ≤ j`. -/
def pySlice (l : List Char) (i j : Nat) : List Char := (l.drop i).take (j - i)

/-- Model of `theme_config.hex_to_rgb`: strip leading `#` characters, then
parse the three 2-character slices as hex. -/
def hex_to_rgb (s : String) : Option (Nat × Nat × Nat) :=
  let h := s.data.dropWhile (fun c => c == '#')
  match parseHexList (pySlice h 0 2), parseHexList (pySlice h 2 4),
        parseHexList (pySlice h 4 6) with
  | some r, some g, some b => some (r, g, b)
  | _, _, _ => none

/-- Uppercase hex digit for a value below 16. -/
def hexDigitChar (n : Nat) : Char :=
  if n < 10 then Char.ofNat (48 + n) else Char.ofNat (55 + n)

def natToHexGo : Nat → Nat → List Char
  | 0, _ => []
  | fuel + 1, n =>
    if n < 16 then [hexDigitChar n]
    else natToHexGo fuel (n / 16) ++ [hexDigitChar (n % 16)]

/-- Uppercase hexadecimal digit list of `n` (the fuel `n + 1` always
suffices since a number has at most `n + 1` digits). -/
def natToHexDigits (n : Nat) : List Char := natToHexGo (n + 1) n

/-- Left-pad with `0` to width 2, as the `02` in the format `\x7br:02X\x7d`. -/
def pad2 (l : List Char) : List Char := List.replicate (2 - l.length) '0' ++ l

/-- Model of `theme_config.rgb_to_hex`, i.e. `f"\x7br:02X\x7d\x7bg:02X\x7d\x7bb:02X\x7d"`. -/
def rgb_to_hex (r g b : Nat) : String :=
  String.mk (pad2 (natToHexDigits r) ++ pad2 (natToHexDigits g) ++ pad2 (natToHexDigits b))

/-- Replacement performed by `_update_color_scheme` on a matched role child:
all existing children are removed and a single `srgbClr` child carrying the
new value is appended; the role element's tag and attributes stay. -/
def setSrgbChild (hex : String) : Xml → Xml
  | .elem t a _ => .elem t a [Xml.elem (aNS ++ "srgbClr") [("val", hex)] []]

/-- The inner loop of `_update_color_scheme`: rewrite the first child whose
local tag equals `name`, leave everything else in place. -/
def updateFirstMatching (name hex : String) : List Xml → List Xml
  | [] => []
  | c :: rest =>
    if localName c.tag = name then setSrgbChild hex c :: rest
    else c :: updateFirstMatching name hex rest

/-- Model of `ThemeApplier._update_color_scheme` applied to the children of
the `clrScheme` element: fold over the configured (role, hex) pairs in dict
order, skipping falsy (empty) hex values. -/
def update_color_scheme (colors : List (String × String)) (cs : List Xml) : List Xml :=
  colors.foldl (fun cs p => if p.2 = "" then cs else updateFirstMatching p.1 p.2 cs) cs

mutual
/-- Model of the `root.iter()` search in `_update_theme_xml`: rewrite the
first element in document order whose local tag is `clrScheme`, then stop.
The boolean records whether one was found. -/
def patchFirstClr (colors : List (String × String)) : Xml → Xml × Bool
  | .elem t a cs =>
    if localName t = "clrScheme" then (.elem t a (update_color_scheme colors cs), true)
    else
      let r := patchFirstClrList colors cs
      (.elem t a r.1, r.2)

def patchFirstClrList (colors : List (String × String)) : List Xml → List Xml × Bool
  | [] => ([], false)
  | c :: rest =>
    let r := patchFirstClr colors c
    if r.2 then (r.1 :: rest, true)
    else
      let rr := patchFirstClrList colors rest
      (r.1 :: rr.1, rr.2)
end

mutual
/-- Whether a subtree contains an element with local tag `clrScheme`. -/
def containsClr : Xml → Bool
  | .elem t _ cs => (localName t == "clrScheme") || containsClrList cs

def containsClrList : List Xml → Bool
  | [] => false
  | c :: rest => containsClr c || containsClrList rest
end

/-- Model of `ThemeApplier._update_theme_xml` as a tree transformation. -/
def update_theme_xml (colors : List (String × String)) (root : Xml) : Xml :=
  (patchFirstClr colors root).1

inductive ApplyErr : Type where
  | badThemeXml
deriving DecidableEq

/-- Model of `ThemeApplier.apply_colors_to_theme_xml`: unpack the package,
modify the member at the exact path `ppt/theme/theme1.xml` when it exists
(no heuristic search), repackage.  `badThemeXml` models an XML parse error
on that member. -/
def apply_colors_to_theme_xml (colors : List (String × String))
    (pkg : List (String × Content)) : Except ApplyErr (List (String × Content)) :=
  if containsStr "ppt/theme/theme1.xml" (pkg.map Prod.fst) then
    match assocLookup "ppt/theme/theme1.xml" pkg with
    | some (.xml root) =>
      .ok (pkg.map (fun m =>
        if m.1 = "ppt/theme/theme1.xml" then
          (m.1, Content.xml (update_theme_xml colors root))
        else m))
    | _ => .error .badThemeXml
  else .ok pkg

/-- Whether a member path lies inside the directory `dir` (given with its
trailing slash) of the extracted tree. -/
def pathInDir (dir name : String) : Bool := listStartsWith dir.data name.data

/-- One conditional subtree replacement of `copy_theme_from_template`:
when the template's extracted tree has the folder, the target's folder is
removed and the template's copied in; otherwise the target is untouched. -/
def replaceSubtree (dir : String) (tmpl tgt : List (String × Content)) :
    List (String × Content) :=
  if tmpl.any (fun m => pathInDir dir m.1) then
    tgt.filter (fun m => !(pathInDir dir m.1)) ++ tmpl.filter (fun m => pathInDir dir m.1)
  else tgt

/-- Model of `ThemeApplier.copy_theme_from_template` on member lists: the
`ppt/theme`, then `ppt/slideMasters`, then `ppt/slideLayouts` subtrees are
each conditionally transplanted from the template into the target. -/
def copy_theme_from_template (tmpl tgt : List (String × Content)) :
    List (String × Content) :=
  replaceSubtree "ppt/slideLayouts/" tmpl
    (replaceSubtree "ppt/slideMasters/" tmpl
      (replaceSubtree "ppt/theme/" tmpl tgt))

/-- A character accepted by `int(s, 16)` as a hexadecimal digit. -/
def isHexDigitB (c : Char) : Bool := (hexVal? c).isSome

/-- A valid 6-hex-digit color string: exactly six characters, all hex
digits (upper- or lowercase). -/
def isHex6 (s : String) : Bool := (s.data.length == 6) && s.data.all isHexDigitB

/-- The (semantic slot, raw role, hardcoded default) table that
`get_color_mapping` realizes. -/
def roleDefaults : List (String × String × String) :=
  [("primary_dark", "dk1", "000000"),
   ("primary_light", "lt1", "FFFFFF"),
   ("secondary_dark", "dk2", "1F497D"),
   ("secondary_light", "lt2", "EEECE1"),
   ("accent1", "accent1", "4F81BD"),
   ("accent2", "accent2", "C0504D"),
   ("accent3", "accent3", "9BBB59"),
   ("accent4", "accent4", "8064A2"),
   ("accent5", "accent5", "4BACC6"),
   ("accent6", "accent6", "F79646"),
   ("hyperlink", "hlink", "0000FF"),
   ("followed_hyperlink", "folHlink", "800080")]

lemma assocLookup_mem {α : Type} {k : String} {v : α} :
    ∀ {d : List (String × α)}, assocLookup k d = some v → (k, v) ∈ d := by
  intro d
  induction d with
  | nil => intro h; simp [assocLookup] at h
  | cons p t ih =>
    intro h
    obtain ⟨k', v'⟩ := p
    unfold assocLookup at h
    split_ifs at h with he
    · obtain rfl : v' = v := Option.some.inj h
      subst he
      exact List.mem_cons_self _ _
    · exact List.mem_cons_of_mem _ (ih h)

lemma isHex6_facts {s : String} (h : isHex6 s = true) :
    s ≠ "" ∧ s.data.all isHexDigitB = true := by
  unfold isHex6 at h
  rw [Bool.and_eq_true, beq_iff_eq] at h
  refine ⟨?_, h.2⟩
  intro he
  subst he
  simp at h

lemma dGet_hex_facts {tc : List (String × String)}
    (h : ∀ p ∈ tc, isHex6 p.2 = true) (k dflt : String) (hd : isHex6 dflt = true) :
    dGet tc k dflt ≠ "" ∧ (dGet tc k dflt).data.all isHexDigitB = true := by
  unfold dGet
  cases hc : assocLookup k tc with
  | none => exact isHex6_facts hd
  | some v => exact isHex6_facts (h _ (assocLookup_mem hc))

/-- C3.  Total semantic mapping: for every `ThemeColorSet` (any subset of
the 12 raw roles with valid hex values, including the empty set), the
semantic mapping has exactly the 12 fixed semantic keys in order; every
value is a non-empty hex string; and each semantic slot holds the raw
role's value when present and that slot's own hardcoded default otherwise.
Determinism and absence of side effects hold because `get_color_mapping`
is a pure function. -/
theorem get_color_mapping_total (tc : List (String × String))
    (h : ∀ p ∈ tc, isHex6 p.2 = true) :
    ((get_color_mapping tc).map Prod.fst =
      ["primary_dark", "primary_light", "secondary_dark", "secondary_light",
       "accent1", "accent2", "accent3", "accent4", "accent5", "accent6",
       "hyperlink", "followed_hyperlink"])
    ∧ (∀ p ∈ get_color_mapping tc, p.2 ≠ "" ∧ p.2.data.all isHexDigitB = true)
    ∧ (∀ r ∈ roleDefaults,
        assocLookup r.1 (get_color_mapping tc) = some (dGet tc r.2.1 r.2.2)) := by
  refine ⟨rfl, ?_, ?_⟩
  · intro p hp
    simp only [get_color_mapping, List.mem_cons, List.not_mem_nil, or_false] at hp
    rcases hp with rfl | rfl | rfl | rfl | rfl | rfl | rfl | rfl | rfl | rfl | rfl | rfl <;>
      exact dGet_hex_facts h _ _ (by decide)
  · intro r hr
    fin_cases hr <;> rfl

/-- Witness for C3 at a concrete one-role color set. -/
theorem get_color_mapping_total_witness :
    ((get_color_mapping [("accent1", "112233")]).map Prod.fst =
      ["primary_dark", "primary_light", "secondary_dark", "secondary_light",
       "accent1", "accent2", "accent3", "accent4", "accent5", "accent6",
       "hyperlink", "followed_hyperlink"])
    ∧ (∀ p ∈ get_color_mapping [("accent1", "112233")],
        p.2 ≠ "" ∧ p.2.data.all isHexDigitB = true)
    ∧ (∀ r ∈ roleDefaults,
        assocLookup r.1 (get_color_mapping [("accent1", "112233")]) =
          some (dGet [("accent1", "112233")] r.2.1 r.2.2)) :=
  get_color_mapping_total [("accent1", "112233")] (by decide)

/-- C7.  Accent cyclic lookup: for every integer `i` (negative and
out-of-range included), `get_accent_color i` equals
`get_accent_color (i mod 6)` and is one of the six configured accents. -/
theorem get_accent_color_cyclic (i : Int) :
    get_accent_color i = get_accent_color (i % 6)
    ∧ get_accent_color i ∈ ACCENT_COLORS := by
  have hlen : (ACCENT_COLORS.length : Int) = 6 := rfl
  constructor
  · unfold get_accent_color
    rw [hlen, Int.emod_emod_of_dvd i (dvd_refl 6)]
  · have h1 : 0 ≤ i % 6 := Int.emod_nonneg i (by decide)
    have h2 : i % 6 < 6 := Int.emod_lt_of_pos i (by decide)
    have h3 : (i % 6).toNat < 6 := by omega
    have key : ∀ k, k < 6 → ACCENT_COLORS.getD k "" ∈ ACCENT_COLORS := by decide
    unfold get_accent_color
    rw [hlen]
    exact key _ h3

/-- C6.  Emission idempotence modulo timestamp: for the same extracted data
(as produced by two extraction runs over the same unmodified template) and
two timestamps, the generated Python module differs exactly in line index 8
(the `Extracted:` line) and the generated JSON document differs exactly in
the `extracted_date` field. -/
theorem emission_idempotent_modulo_timestamp (tmplName tmplPath themeName : String)
    (colors fonts : List (String × String)) (ts1 ts2 : String) :
    ((pyConfigLines tmplName themeName colors fonts ts1).eraseIdx 8 =
      (pyConfigLines tmplName themeName colors fonts ts2).eraseIdx 8)
    ∧ (pyConfigLines tmplName themeName colors fonts ts1)[8]? =
        some ("Extracted: " ++ ts1)
    ∧ ((jsonConfigFields tmplPath themeName colors fonts ts1).filter
        (fun kv => kv.1 != "extracted_date") =
       (jsonConfigFields tmplPath themeName colors fonts ts2).filter
        (fun kv => kv.1 != "extracted_date"))
    ∧ assocLookup "extracted_date" (jsonConfigFields tmplPath themeName colors fonts ts1) =
        some (JVal.str ts1) :=
  ⟨rfl, rfl, rfl, rfl⟩

lemma toNat_ofNat_valid (m : Nat) (h : m < 55296) : (Char.ofNat m).toNat = m := by
  unfold Char.ofNat
  rw [dif_pos (Or.inl h)]
  rfl

lemma hexVal_digit {c : Char} {v : Nat} (h : hexVal? c = some v) :
    v < 16 ∧ hexDigitChar v = c.toUpper ∧ (c == '#') = false := by
  unfold hexVal? at h
  split_ifs at h with h1 h2 h3
  · have hv := Option.some.inj h
    subst hv
    have hlt : c.toNat - 48 < 10 := by omega
    refine ⟨by omega, ?_, ?_⟩
    · apply Char.ext
      apply UInt32.ext
      show (hexDigitChar (c.toNat - 48)).toNat = (c.toUpper).toNat
      have lhs : (hexDigitChar (c.toNat - 48)).toNat = 48 + (c.toNat - 48) := by
        unfold hexDigitChar
        rw [if_pos hlt]
        exact toNat_ofNat_valid _ (by omega)
      have rhs : c.toUpper = c := by
        unfold Char.toUpper
        rw [if_neg (by omega)]
      rw [lhs, rhs]
      omega
    · cases hcb : c == '#'
      · rfl
      · have hc : c = '#' := eq_of_beq hcb
        subst hc
        exact absurd h1 (by decide)
  · have hv := Option.some.inj h
    subst hv
    refine ⟨by omega, ?_, ?_⟩
    · apply Char.ext
      apply UInt32.ext
      show (hexDigitChar (c.toNat - 87)).toNat = (c.toUpper).toNat
      have lhs : (hexDigitChar (c.toNat - 87)).toNat = 55 + (c.toNat - 87) := by
        unfold hexDigitChar
        rw [if_neg (by omega)]
        exact toNat_ofNat_valid _ (by omega)
      have rhs : (c.toUpper).toNat = c.toNat - 32 := by
        unfold Char.toUpper
        rw [if_pos (by omega)]
        exact toNat_ofNat_valid _ (by omega)
      rw [lhs, rhs]
      omega
    · cases hcb : c == '#'
      · rfl
      · have hc : c = '#' := eq_of_beq hcb
        subst hc
        exact absurd h2 (by decide)
  · have hv := Option.some.inj h
    subst hv
    refine ⟨by omega, ?_, ?_⟩
    · apply Char.ext
      apply UInt32.ext
      show (hexDigitChar (c.toNat - 55)).toNat = (c.toUpper).toNat
      have lhs : (hexDigitChar (c.toNat - 55)).toNat = 55 + (c.toNat - 55) := by
        unfold hexDigitChar
        rw [if_neg (by omega)]
        exact toNat_ofNat_valid _ (by omega)
      have rhs : c.toUpper = c := by
        unfold Char.toUpper
        rw [if_neg (by omega)]
      rw [lhs, rhs]
      omega
    · cases hcb : c == '#'
      · rfl
      · have hc : c = '#' := eq_of_beq hcb
        subst hc
        exact absurd h3 (by decide)

lemma parseHexList_pair {a b : Char} {va vb : Nat}
    (ha : hexVal? a = some va) (hb : hexVal? b = some vb) :
    parseHexList [a, b] = some (16 * va + vb) := by
  simp [parseHexList, parseHexGo, ha, hb]

lemma pad2_hex_pair : ∀ a, a < 16 → ∀ b, b < 16 →
    pad2 (natToHexDigits (16 * a + b)) = [hexDigitChar a, hexDigitChar b] := by decide

lemma list_len6 {α : Type} {l : List α} (h : l.length = 6) :
    ∃ a b c d e f, l = [a, b, c, d, e, f] := by
  rcases l with _ | ⟨a, l⟩
  · simp at h
  rcases l with _ | ⟨b, l⟩
  · simp at h
  rcases l with _ | ⟨c, l⟩
  · simp at h
  rcases l with _ | ⟨d, l⟩
  · simp at h
  rcases l with _ | ⟨e, l⟩
  · simp at h
  rcases l with _ | ⟨f, l⟩
  · simp at h
  have hnil : l = [] := by
    have hl : l.length = 0 := by simpa using h
    exact List.length_eq_zero.mp hl
  subst hnil
  exact ⟨a, b, c, d, e, f, rfl⟩

/-- C8.  Hex/RGB round trip: for every valid 6-hex-digit string `h` (upper-
or lowercase digits), `hex_to_rgb h` succeeds and `rgb_to_hex` on the
resulting triple returns `h` uppercased. -/
theorem hex_rgb_round_trip (h : String) (hh : isHex6 h = true) :
    ∃ r g b, hex_to_rgb h = some (r, g, b) ∧ rgb_to_hex r g b = upperStr h := by
  obtain ⟨hlen, hall⟩ : h.data.length = 6 ∧ h.data.all isHexDigitB = true := by
    unfold isHex6 at hh
    rw [Bool.and_eq_true, beq_iff_eq] at hh
    exact hh
  obtain ⟨c0, c1, c2, c3, c4, c5, hd⟩ := list_len6 hlen
  rw [hd] at hall
  simp only [List.all_cons, List.all_nil, Bool.and_eq_true, and_true] at hall
  obtain ⟨h0, h1, h2, h3, h4, h5⟩ := hall
  unfold isHexDigitB at h0 h1 h2 h3 h4 h5
  obtain ⟨v0, hv0⟩ := Option.isSome_iff_exists.mp h0
  obtain ⟨v1, hv1⟩ := Option.isSome_iff_exists.mp h1
  obtain ⟨v2, hv2⟩ := Option.isSome_iff_exists.mp h2
  obtain ⟨v3, hv3⟩ := Option.isSome_iff_exists.mp h3
  obtain ⟨v4, hv4⟩ := Option.isSome_iff_exists.mp h4
  obtain ⟨v5, hv5⟩ := Option.isSome_iff_exists.mp h5
  obtain ⟨b0, u0, n0⟩ := hexVal_digit hv0
  obtain ⟨b1, u1, _⟩ := hexVal_digit hv1
  obtain ⟨b2, u2, _⟩ := hexVal_digit hv2
  obtain ⟨b3, u3, _⟩ := hexVal_digit hv3
  obtain ⟨b4, u4, _⟩ := hexVal_digit hv4
  obtain ⟨b5, u5, _⟩ := hexVal_digit hv5
  refine ⟨16 * v0 + v1, 16 * v2 + v3, 16 * v4 + v5, ?_, ?_⟩
  · unfold hex_to_rgb
    rw [hd]
    have hdrop : List.dropWhile (fun c => c == '#') [c0, c1, c2, c3, c4, c5] =
        [c0, c1, c2, c3, c4, c5] := by
      simp only [List.dropWhile]
      rw [n0]
    rw [hdrop]
    have e1 : pySlice [c0, c1, c2, c3, c4, c5] 0 2 = [c0, c1] := rfl
    have e2 : pySlice [c0, c1, c2, c3, c4, c5] 2 4 = [c2, c3] := rfl
    have e3 : pySlice [c0, c1, c2, c3, c4, c5] 4 6 = [c4, c5] := rfl
    simp only [e1, e2, e3, parseHexList_pair hv0 hv1, parseHexList_pair hv2 hv3,
      parseHexList_pair hv4 hv5]
  · unfold rgb_to_hex upperStr
    rw [hd, pad2_hex_pair _ b0 _ b1, pad2_hex_pair _ b2 _ b3, pad2_hex_pair _ b4 _ b5,
      u0, u1, u2, u3, u4, u5]
    simp

/-- Witness for C8 at the concrete input `"1a2b3c"`. -/
theorem hex_rgb_round_trip_witness :
    isHex6 "1a2b3c" = true
    ∧ (∃ r g b, hex_to_rgb "1a2b3c" = some (r, g, b)
        ∧ rgb_to_hex r g b = upperStr "1a2b3c") :=
  ⟨by decide, hex_rgb_round_trip "1a2b3c" (by decide)⟩

lemma containsStr_iff {x : String} : ∀ {l : List String}, containsStr x l = true ↔ x ∈ l := by
  intro l
  induction l with
  | nil => simp [containsStr]
  | cons y t ih =>
    unfold containsStr
    split_ifs with he
    · subst he
      simp
    · simp only [List.mem_cons, iff_true_intro ih.symm]
      constructor
      · intro h
        exact Or.inr (ih.mp h)
      · intro h
        rcases h with h | h
        · exact absurd h.symm he
        · exact ih.mpr h

lemma firstMatch_cover {p : String → Bool} :
    ∀ (l1 : List String) (f : String) (l2 : List String), p f = true →
      (∀ g ∈ l1, p g = false) → firstMatch p (l1 ++ f :: l2) = some f := by
  intro l1
  induction l1 with
  | nil =>
    intro f l2 hf _
    simp [firstMatch, hf]
  | cons g t ih =>
    intro f l2 hf hl
    have hg : p g = false := hl g (List.mem_cons_self _ _)
    simp only [List.cons_append, firstMatch, hg]
    simp only [Bool.false_eq_true, if_false]
    exact ih f l2 hf (fun g' hg' => hl g' (List.mem_cons_of_mem _ hg'))

lemma firstMatch_none {p : String → Bool} :
    ∀ {l : List String}, (∀ g ∈ l, p g = false) → firstMatch p l = none := by
  intro l
  induction l with
  | nil => intro _; rfl
  | cons g t ih =>
    intro hl
    have hg : p g = false := hl g (List.mem_cons_self _ _)
    simp only [firstMatch, hg, Bool.false_eq_true, if_false]
    exact ih (fun g' hg' => hl g' (List.mem_cons_of_mem _ hg'))

/-- C1 (amended).  Theme member resolution: the exact conventional path wins
when present; otherwise the first member in archive listing order whose
name, lowercased, contains the substring `"theme"` and which ends in
`".xml"` is chosen; when no member satisfies either rule, extraction
signals the theme-not-found condition and the extraction flow emits no
output artifacts. -/
theorem find_theme_path_characterization (pkg : List (String × Content))
    (tmplName tmplPath ts1 ts2 : String) :
    ("ppt/theme/theme1.xml" ∈ pkg.map Prod.fst →
      find_theme_path (pkg.map Prod.fst) = some "ppt/theme/theme1.xml")
    ∧ ("ppt/theme/theme1.xml" ∉ pkg.map Prod.fst →
        ∀ l1 f l2, pkg.map Prod.fst = l1 ++ f :: l2 → themeHeuristic f = true →
          (∀ g ∈ l1, themeHeuristic g = false) →
          find_theme_path (pkg.map Prod.fst) = some f)
    ∧ ("ppt/theme/theme1.xml" ∉ pkg.map Prod.fst →
        (∀ f ∈ pkg.map Prod.fst, themeHeuristic f = false) →
        find_theme_path (pkg.map Prod.fst) = none
        ∧ extract pkg = .error .themeNotFound
        ∧ run_extraction pkg tmplName tmplPath ts1 ts2 = .error .themeNotFound) := by
  refine ⟨?_, ?_, ?_⟩
  · intro hm
    unfold find_theme_path
    rw [if_pos (containsStr_iff.mpr hm)]
  · intro hnm l1 f l2 he hf hl1
    have hb : containsStr "ppt/theme/theme1.xml" (pkg.map Prod.fst) = false := by
      cases hc : containsStr "ppt/theme/theme1.xml" (pkg.map Prod.fst)
      · rfl
      · exact absurd (containsStr_iff.mp hc) hnm
    unfold find_theme_path
    rw [hb]
    simp only [Bool.false_eq_true, if_false]
    rw [he]
    exact firstMatch_cover l1 f l2 hf hl1
  · intro hnm hall
    have hb : containsStr "ppt/theme/theme1.xml" (pkg.map Prod.fst) = false := by
      cases hc : containsStr "ppt/theme/theme1.xml" (pkg.map Prod.fst)
      · rfl
      · exact absurd (containsStr_iff.mp hc) hnm
    have hfind : find_theme_path (pkg.map Prod.fst) = none := by
      unfold find_theme_path
      rw [hb]
      simp only [Bool.false_eq_true, if_false]
      exact firstMatch_none hall
    refine ⟨hfind, ?_, ?_⟩
    · unfold extract
      rw [hfind]
    · unfold run_extraction extract
      rw [hfind]

/-- Counterexample for C1 as frozen: the member name `"Theme2.xml"` does
not contain the literal substring `"theme"`, yet `_find_theme_path`
selects it (the code lowercases the name first), so extraction succeeds
where the claim requires a theme-not-found signal. -/
theorem find_theme_path_case_sensitivity_cex :
    listContainsSub "theme".data "Theme2.xml".data = false
    ∧ "Theme2.xml" ≠ "ppt/theme/theme1.xml"
    ∧ find_theme_path ["Theme2.xml"] = some "Theme2.xml"
    ∧ extract [("Theme2.xml", Content.xml (Xml.elem "theme" [("name", "X")] []))] =
        .ok ("X", [], []) :=
  ⟨by decide, by decide, rfl, rfl⟩

/-- Witness for C1: the three cases of the resolution theorem at concrete
packages. -/
theorem find_theme_path_characterization_witness :
    find_theme_path (([("ppt/theme/theme1.xml", Content.bin [1])] :
        List (String × Content)).map Prod.fst) = some "ppt/theme/theme1.xml"
    ∧ find_theme_path (([("a.bin", Content.bin [0]), ("mytheme.xml", Content.bin [1])] :
        List (String × Content)).map Prod.fst) = some "mytheme.xml"
    ∧ (find_theme_path (([("a.bin", Content.bin [0])] :
          List (String × Content)).map Prod.fst) = none
        ∧ extract [("a.bin", Content.bin [0])] = .error .themeNotFound
        ∧ run_extraction [("a.bin", Content.bin [0])] "t" "p" "ts1" "ts2" =
            .error .themeNotFound) :=
  ⟨(find_theme_path_characterization [("ppt/theme/theme1.xml", Content.bin [1])]
      "t" "p" "ts1" "ts2").1 (by decide),
   (find_theme_path_characterization [("a.bin", Content.bin [0]), ("mytheme.xml", Content.bin [1])]
      "t" "p" "ts1" "ts2").2.1 (by decide) ["a.bin"] "mytheme.xml" [] rfl (by decide)
      (by decide),
   (find_theme_path_characterization [("a.bin", Content.bin [0])]
      "t" "p" "ts1" "ts2").2.2 (by decide) (by decide)⟩

lemma extract_color_value_skip {y : Xml} (h1 : localName y.tag ≠ "srgbClr")
    (h2 : localName y.tag ≠ "sysClr") (rest : List Xml) :
    extract_color_value (y :: rest) = extract_color_value rest := by
  rw [show extract_color_value (y :: rest) =
      (if localName y.tag = "srgbClr" then some (upperStr (attrGet y.attrs "val" ""))
       else if localName y.tag = "sysClr" then some (upperStr (attrGet y.attrs "lastClr" ""))
       else extract_color_value rest) from rfl,
    if_neg h1, if_neg h2]

lemma extract_color_value_none :
    ∀ {cs : List Xml}, (∀ y ∈ cs, localName y.tag ≠ "srgbClr" ∧ localName y.tag ≠ "sysClr") →
      extract_color_value cs = none := by
  intro cs
  induction cs with
  | nil => intro _; rfl
  | cons y t ih =>
    intro h
    obtain ⟨h1, h2⟩ := h y (List.mem_cons_self _ _)
    rw [extract_color_value_skip h1 h2]
    exact ih (fun y' hy' => h y' (List.mem_cons_of_mem _ hy'))

/-- C2 (amended).  Color value resolution per role element: the first child
in document order that is an `srgbClr` or a `sysClr` determines the role's
value (`srgbClr` contributes its `val` attribute uppercased, `sysClr` its
`lastClr` attribute uppercased, with the symbolic name ignored); a role
element none of whose children are of either form yields no value, and
such a role is simply absent from the parsed result rather than an
error. -/
theorem extract_color_value_first_recognized (cs l1 l2 : List Xml) (c : Xml)
    (t : String) (a d : List (String × String)) :
    ((∀ y ∈ cs, localName y.tag ≠ "srgbClr" ∧ localName y.tag ≠ "sysClr") →
      extract_color_value cs = none)
    ∧ (cs = l1 ++ c :: l2 →
        (∀ y ∈ l1, localName y.tag ≠ "srgbClr" ∧ localName y.tag ≠ "sysClr") →
        ((localName c.tag = "srgbClr" →
           extract_color_value cs = some (upperStr (attrGet c.attrs "val" "")))
         ∧ (localName c.tag = "sysClr" →
           extract_color_value cs = some (upperStr (attrGet c.attrs "lastClr" "")))))
    ∧ (extract_color_value cs = none → parse_color_scheme [Xml.elem t a cs] d = d) := by
  refine ⟨extract_color_value_none, ?_, ?_⟩
  · intro he hl1
    subst he
    induction l1 with
    | nil =>
      constructor
      · intro hc
        simp only [List.nil_append]
        unfold extract_color_value
        rw [if_pos hc]
      · intro hc
        simp only [List.nil_append]
        unfold extract_color_value
        rw [if_neg (by rw [hc]; decide), if_pos hc]
    | cons y t ih =>
      obtain ⟨h1, h2⟩ := hl1 y (List.mem_cons_self _ _)
      have ih' := ih (fun y' hy' => hl1 y' (List.mem_cons_of_mem _ hy'))
      simp only [List.cons_append]
      rw [extract_color_value_skip h1 h2]
      exact ih'
  · intro h
    show List.foldl _ d [Xml.elem t a cs] = d
    simp only [List.foldl_cons, List.foldl_nil]
    show (if COLOR_NAMES.contains (localName (Xml.elem t a cs).tag) then _ else d) = d
    split_ifs with hc
    · show (match extract_color_value (Xml.elem t a cs).children with
        | some v => if v = "" then d else dictInsert (localName (Xml.elem t a cs).tag) v d
        | none => d) = d
      rw [show (Xml.elem t a cs).children = cs from rfl, h]
    · rfl

/-- Counterexample for C2 as frozen: a role element whose children are a
`sysClr` followed by an `srgbClr` carrying `val="bbbbbb"` contains a
direct-RGB child, yet the code resolves the role to the `sysClr`'s value
`"AAAAAA"`, not to `"BBBBBB"`. -/
theorem extract_color_value_priority_cex :
    Xml.elem (aNS ++ "srgbClr") [("val", "bbbbbb")] [] ∈
      [Xml.elem (aNS ++ "sysClr") [("val", "windowText"), ("lastClr", "aaaaaa")] [],
       Xml.elem (aNS ++ "srgbClr") [("val", "bbbbbb")] []]
    ∧ localName (Xml.elem (aNS ++ "srgbClr") [("val", "bbbbbb")] []).tag = "srgbClr"
    ∧ attrGet (Xml.elem (aNS ++ "srgbClr") [("val", "bbbbbb")] []).attrs "val" "" = "bbbbbb"
    ∧ extract_color_value
        [Xml.elem (aNS ++ "sysClr") [("val", "windowText"), ("lastClr", "aaaaaa")] [],
         Xml.elem (aNS ++ "srgbClr") [("val", "bbbbbb")] []] = some "AAAAAA"
    ∧ some "AAAAAA" ≠ some (upperStr "bbbbbb") :=
  ⟨List.Mem.tail _ (List.Mem.head _), by decide, rfl, rfl, by decide⟩

/-- Witness for C2 (amended): the none case, the claim's system-color
scenario (`lastClr "1a2b3c"` resolved to `"1A2B3C"` behind a preceding
unrecognized child), and role absence. -/
theorem extract_color_value_first_recognized_witness :
    extract_color_value [Xml.elem "foo" [] []] = none
    ∧ extract_color_value
        [Xml.elem "foo" [] [],
         Xml.elem (aNS ++ "sysClr") [("val", "windowText"), ("lastClr", "1a2b3c")] []] =
        some (upperStr (attrGet [("val", "windowText"), ("lastClr", "1a2b3c")] "lastClr" ""))
    ∧ parse_color_scheme [Xml.elem "bar" [] [Xml.elem "foo" [] []]] [] = [] :=
  ⟨(extract_color_value_first_recognized [Xml.elem "foo" [] []] [] []
      (Xml.elem "" [] []) "" [] []).1 (by decide),
   ((extract_color_value_first_recognized
      [Xml.elem "foo" [] [],
       Xml.elem (aNS ++ "sysClr") [("val", "windowText"), ("lastClr", "1a2b3c")] []]
      [Xml.elem "foo" [] []] []
      (Xml.elem (aNS ++ "sysClr") [("val", "windowText"), ("lastClr", "1a2b3c")] [])
      "" [] []).2.1 rfl (by decide)).2 (by decide),
   (extract_color_value_first_recognized [Xml.elem "foo" [] []] [] []
      (Xml.elem "" [] []) "bar" [] []).2.2 (by decide)⟩

lemma updateFirstMatching_length (name hex : String) :
    ∀ cs : List Xml, (updateFirstMatching name hex cs).length = cs.length := by
  intro cs
  induction cs with
  | nil => rfl
  | cons c t ih =>
    unfold updateFirstMatching
    split_ifs
    · simp
    · simp [ih]

lemma updateFirstMatching_get (name hex : String) :
    ∀ (cs : List Xml) (i : Nat) (c : Xml), cs[i]? = some c →
      localName c.tag ≠ name → (updateFirstMatching name hex cs)[i]? = some c := by
  intro cs
  induction cs with
  | nil => intro i c hi _; simp at hi
  | cons y t ih =>
    intro i c hi hne
    unfold updateFirstMatching
    split_ifs with hy
    · cases i with
      | zero =>
        obtain rfl : y = c := by simpa using hi
        exact absurd hy hne
      | succ j =>
        simpa using (by simpa using hi : t[j]? = some c)
    · cases i with
      | zero => simpa using hi
      | succ j =>
        simpa using ih j c (by simpa using hi) hne

/-- C4.  Patch-mode structural preservation: `_update_color_scheme` keeps
the child list's length, and every role child whose local tag is not bound
to a non-empty value in the input map (absent from the map, or present
with an empty value) is preserved at its position with its original child
structure intact. -/
theorem update_color_scheme_preserves_inactive (colors : List (String × String))
    (cs : List Xml) :
    (update_color_scheme colors cs).length = cs.length
    ∧ ∀ (i : Nat) (c : Xml), cs[i]? = some c →
        (∀ p ∈ colors, p.1 = localName c.tag → p.2 = "") →
        (update_color_scheme colors cs)[i]? = some c := by
  unfold update_color_scheme
  induction colors generalizing cs with
  | nil => exact ⟨rfl, fun i c hi _ => hi⟩
  | cons p ps ih =>
    simp only [List.foldl_cons]
    constructor
    · rw [(ih _).1]
      split_ifs
      · rfl
      · exact updateFirstMatching_length _ _ _
    · intro i c hi hcol
      have hstep : (if p.2 = "" then cs else updateFirstMatching p.1 p.2 cs)[i]? = some c := by
        split_ifs with hp
        · exact hi
        · refine updateFirstMatching_get _ _ _ _ _ hi ?_
          intro he
          exact hp (hcol p (List.mem_cons_self _ _) he.symm)
      exact (ih _).2 i c hstep (fun q hq => hcol q (List.mem_cons_of_mem _ hq))

/-- Witness for C4 at the claim's scenario: patching with only
`accent1 = "112233"` replaces exactly the `accent1` swatch; the `dk1` role
(with a system-color child) and the `accent2` role keep their original
child structure. -/
theorem update_color_scheme_preserves_inactive_witness :
    (update_color_scheme [("accent1", "112233")]
      [Xml.elem (aNS ++ "dk1") []
         [Xml.elem (aNS ++ "sysClr") [("val", "windowText"), ("lastClr", "000000")] []],
       Xml.elem (aNS ++ "accent1") [] [Xml.elem (aNS ++ "srgbClr") [("val", "AAAAAA")] []],
       Xml.elem (aNS ++ "accent2") []
         [Xml.elem (aNS ++ "srgbClr") [("val", "CCCCCC")] []]]).length =
      ([Xml.elem (aNS ++ "dk1") []
         [Xml.elem (aNS ++ "sysClr") [("val", "windowText"), ("lastClr", "000000")] []],
        Xml.elem (aNS ++ "accent1") [] [Xml.elem (aNS ++ "srgbClr") [("val", "AAAAAA")] []],
        Xml.elem (aNS ++ "accent2") []
         [Xml.elem (aNS ++ "srgbClr") [("val", "CCCCCC")] []]] : List Xml).length
    ∧ (update_color_scheme [("accent1", "112233")]
        [Xml.elem (aNS ++ "dk1") []
           [Xml.elem (aNS ++ "sysClr") [("val", "windowText"), ("lastClr", "000000")] []],
         Xml.elem (aNS ++ "accent1") [] [Xml.elem (aNS ++ "srgbClr") [("val", "AAAAAA")] []],
         Xml.elem (aNS ++ "accent2") []
           [Xml.elem (aNS ++ "srgbClr") [("val", "CCCCCC")] []]])[0]? =
        some (Xml.elem (aNS ++ "dk1") []
          [Xml.elem (aNS ++ "sysClr") [("val", "windowText"), ("lastClr", "000000")] []])
    ∧ update_color_scheme [("accent1", "112233")]
        [Xml.elem (aNS ++ "dk1") []
           [Xml.elem (aNS ++ "sysClr") [("val", "windowText"), ("lastClr", "000000")] []],
         Xml.elem (aNS ++ "accent1") [] [Xml.elem (aNS ++ "srgbClr") [("val", "AAAAAA")] []],
         Xml.elem (aNS ++ "accent2") []
           [Xml.elem (aNS ++ "srgbClr") [("val", "CCCCCC")] []]] =
        [Xml.elem (aNS ++ "dk1") []
           [Xml.elem (aNS ++ "sysClr") [("val", "windowText"), ("lastClr", "000000")] []],
         Xml.elem (aNS ++ "accent1") [] [Xml.elem (aNS ++ "srgbClr") [("val", "112233")] []],
         Xml.elem (aNS ++ "accent2") []
           [Xml.elem (aNS ++ "srgbClr") [("val", "CCCCCC")] []]] :=
  ⟨(update_color_scheme_preserves_inactive [("accent1", "112233")] _).1,
   (update_color_scheme_preserves_inactive [("accent1", "112233")] _).2 0 _ rfl (by decide),
   rfl⟩

/-- C9.  Patch mode silently no-ops without the exact conventional member:
when a package has no member named exactly `ppt/theme/theme1.xml`,
`apply_colors_to_theme_xml` raises no error and returns the package with
every member's content unchanged (it performs no heuristic theme search).
The `Nodup` hypothesis states the zip has no duplicate member paths, the
condition under which extract-then-rezip preserves members. -/
theorem apply_colors_noop_without_exact_theme_path (colors : List (String × String))
    (pkg : List (String × Content)) (hnd : (pkg.map Prod.fst).Nodup)
    (h : containsStr "ppt/theme/theme1.xml" (pkg.map Prod.fst) = false) :
    apply_colors_to_theme_xml colors pkg = .ok pkg := by
  unfold apply_colors_to_theme_xml
  rw [h]
  simp

/-- Witness for C9: a package whose theme member would be found by the
extractor's substring heuristic, but not by patch mode's exact-path
check, passes through untouched. -/
theorem apply_colors_noop_without_exact_theme_path_witness :
    apply_colors_to_theme_xml [("accent1", "112233")]
      [("ppt/theme/Mytheme.xml", Content.xml (Xml.elem "x" [] [])),
       ("docProps/app.xml", Content.bin [7])] =
      .ok [("ppt/theme/Mytheme.xml", Content.xml (Xml.elem "x" [] [])),
           ("docProps/app.xml", Content.bin [7])]
    ∧ find_theme_path
        (([("ppt/theme/Mytheme.xml", Content.xml (Xml.elem "x" [] [])),
           ("docProps/app.xml", Content.bin [7])] :
          List (String × Content)).map Prod.fst) = some "ppt/theme/Mytheme.xml" :=
  ⟨apply_colors_noop_without_exact_theme_path [("accent1", "112233")]
      [("ppt/theme/Mytheme.xml", Content.xml (Xml.elem "x" [] [])),
       ("docProps/app.xml", Content.bin [7])] (by decide) (by decide),
   rfl⟩

lemma patch_containsClr_kit (colors : List (String × String)) :
    ∀ n : Nat,
      (∀ x : Xml, sizeOf x ≤ n →
        (containsClr x = false → patchFirstClr colors x = (x, false))
        ∧ (containsClr x = true → (patchFirstClr colors x).2 = true))
      ∧ (∀ cs : List Xml, sizeOf cs ≤ n →
        (containsClrList cs = false → patchFirstClrList colors cs = (cs, false))
        ∧ (containsClrList cs = true → (patchFirstClrList colors cs).2 = true)) := by
  intro n
  induction n with
  | zero =>
    constructor
    · intro x hx
      exfalso
      cases x with
      | elem t a cs => simp at hx
    · intro cs hcs
      cases cs with
      | nil =>
        refine ⟨fun _ => rfl, fun h => absurd h (by decide)⟩
      | cons c rest =>
        exfalso
        simp at hcs
  | succ n ih =>
    constructor
    · intro x hx
      cases x with
      | elem t a cs =>
        have hsz : sizeOf cs ≤ n := by simp at hx; omega
        have e : patchFirstClr colors (Xml.elem t a cs) =
            (if localName t = "clrScheme" then
              (Xml.elem t a (update_color_scheme colors cs), true)
             else (Xml.elem t a (patchFirstClrList colors cs).1,
                   (patchFirstClrList colors cs).2)) := rfl
        have ec : containsClr (Xml.elem t a cs) =
            ((localName t == "clrScheme") || containsClrList cs) := rfl
        constructor
        · intro hc
          rw [ec] at hc
          obtain ⟨h1, h2⟩ := Bool.or_eq_false_iff.mp hc
          rw [e, if_neg (by simpa using h1), ((ih.2 cs hsz).1 h2)]
        · intro hc
          rw [ec] at hc
          rw [e]
          split_ifs with hcl
          · rfl
          · have h2 : containsClrList cs = true := by
              rcases Bool.or_eq_true_iff.mp hc with h | h
              · exact absurd (by simpa using h) hcl
              · exact h
            simpa using (ih.2 cs hsz).2 h2
    · intro cs hcs
      cases cs with
      | nil =>
        refine ⟨fun _ => rfl, fun h => absurd h (by decide)⟩
      | cons c rest =>
        have hszc : sizeOf c ≤ n := by simp at hcs; omega
        have hszr : sizeOf rest ≤ n := by simp at hcs; omega
        have e : patchFirstClrList colors (c :: rest) =
            (if (patchFirstClr colors c).2 then ((patchFirstClr colors c).1 :: rest, true)
             else ((patchFirstClr colors c).1 :: (patchFirstClrList colors rest).1,
                   (patchFirstClrList colors rest).2)) := rfl
        have ec : containsClrList (c :: rest) =
            (containsClr c || containsClrList rest) := rfl
        constructor
        · intro hc
          rw [ec] at hc
          obtain ⟨h1, h2⟩ := Bool.or_eq_false_iff.mp hc
          have hpc := (ih.1 c hszc).1 h1
          have hpr := (ih.2 rest hszr).1 h2
          rw [e, hpc, hpr]
          simp
        · intro hc
          rw [ec] at hc
          rw [e]
          rcases Bool.or_eq_true_iff.mp hc with h | h
          · have hpc := (ih.1 c hszc).2 h
            rw [hpc]
            simp
          · split_ifs with hb
            · rfl
            · simpa using (ih.2 rest hszr).2 h

lemma patchFirstClr_not_found (colors : List (String × String)) (x : Xml)
    (h : containsClr x = false) : patchFirstClr colors x = (x, false) :=
  ((patch_containsClr_kit colors (sizeOf x)).1 x le_rfl).1 h

lemma patchFirstClr_found (colors : List (String × String)) (x : Xml)
    (h : containsClr x = true) : (patchFirstClr colors x).2 = true :=
  ((patch_containsClr_kit colors (sizeOf x)).1 x le_rfl).2 h

lemma patchFirstClrList_cover (colors : List (String × String)) :
    ∀ l1 : List Xml, (∀ y ∈ l1, containsClr y = false) →
      ∀ c : Xml, containsClr c = true → ∀ l2 : List Xml,
        patchFirstClrList colors (l1 ++ c :: l2) =
          (l1 ++ (patchFirstClr colors c).1 :: l2, true) := by
  intro l1
  induction l1 with
  | nil =>
    intro _ c hc l2
    have e : patchFirstClrList colors (c :: l2) =
        (if (patchFirstClr colors c).2 then ((patchFirstClr colors c).1 :: l2, true)
         else ((patchFirstClr colors c).1 :: (patchFirstClrList colors l2).1,
               (patchFirstClrList colors l2).2)) := rfl
    simp only [List.nil_append, e, patchFirstClr_found colors c hc, if_true]
  | cons y t ih =>
    intro hl c hc l2
    have hy := patchFirstClr_not_found colors y (hl y (List.mem_cons_self _ _))
    have e : patchFirstClrList colors (y :: (t ++ c :: l2)) =
        (if (patchFirstClr colors y).2 then ((patchFirstClr colors y).1 :: (t ++ c :: l2), true)
         else ((patchFirstClr colors y).1 :: (patchFirstClrList colors (t ++ c :: l2)).1,
               (patchFirstClrList colors (t ++ c :: l2)).2)) := rfl
    rw [List.cons_append, e, hy,
      ih (fun y' hy' => hl y' (List.mem_cons_of_mem _ hy')) c hc l2]
    simp

/-- C10.  Patch mode touches only the first color scheme: when the root is
not itself a `clrScheme` and the first subtree containing one is `c`, the
rewrite happens inside `c` alone and every later sibling — including
further `clrScheme` elements — is returned unchanged; and within a scheme,
for a given role name only the first matching role child is rewritten,
later children with the same tag staying as they are. -/
theorem update_theme_first_clrscheme_only (colors : List (String × String))
    (t : String) (a : List (String × String)) (l1 : List Xml) (c : Xml) (l2 : List Xml)
    (name hex : String) (m1 : List Xml) (d : Xml) (m2 : List Xml) :
    (localName t ≠ "clrScheme" → (∀ y ∈ l1, containsClr y = false) →
      containsClr c = true →
      update_theme_xml colors (Xml.elem t a (l1 ++ c :: l2)) =
        Xml.elem t a (l1 ++ (patchFirstClr colors c).1 :: l2))
    ∧ ((∀ y ∈ m1, localName y.tag ≠ name) → localName d.tag = name →
        updateFirstMatching name hex (m1 ++ d :: m2) =
          m1 ++ setSrgbChild hex d :: m2) := by
  constructor
  · intro hroot hl1 hc
    unfold update_theme_xml
    have e : patchFirstClr colors (Xml.elem t a (l1 ++ c :: l2)) =
        (if localName t = "clrScheme" then
          (Xml.elem t a (update_color_scheme colors (l1 ++ c :: l2)), true)
         else (Xml.elem t a (patchFirstClrList colors (l1 ++ c :: l2)).1,
               (patchFirstClrList colors (l1 ++ c :: l2)).2)) := rfl
    rw [e, if_neg hroot, patchFirstClrList_cover colors l1 hl1 c hc l2]
  · intro hm hd
    induction m1 with
    | nil =>
      have e : updateFirstMatching name hex (d :: m2) =
          (if localName d.tag = name then setSrgbChild hex d :: m2
           else d :: updateFirstMatching name hex m2) := rfl
      simp only [List.nil_append, e, if_pos hd]
    | cons y m ih =>
      have hy : localName y.tag ≠ name := hm y (List.mem_cons_self _ _)
      have e : updateFirstMatching name hex (y :: (m ++ d :: m2)) =
          (if localName y.tag = name then setSrgbChild hex y :: (m ++ d :: m2)
           else y :: updateFirstMatching name hex (m ++ d :: m2)) := rfl
      rw [List.cons_append, e, if_neg hy,
        ih (fun y' hy' => hm y' (List.mem_cons_of_mem _ hy'))]
      rfl

/-- Witness for C10: a theme document with two `clrScheme` children — only
the first is rewritten, the second survives verbatim; and a scheme with two
`accent1` children — only the first is replaced. -/
theorem update_theme_first_clrscheme_only_witness :
    update_theme_xml [("accent1", "112233")]
      (Xml.elem (aNS ++ "theme") [("name", "T")]
        [Xml.elem (aNS ++ "fontScheme") [] [],
         Xml.elem (aNS ++ "clrScheme") []
           [Xml.elem (aNS ++ "accent1") [] [Xml.elem (aNS ++ "srgbClr") [("val", "AAAAAA")] []]],
         Xml.elem (aNS ++ "clrScheme") []
           [Xml.elem (aNS ++ "accent1") [] [Xml.elem (aNS ++ "srgbClr") [("val", "BBBBBB")] []]]]) =
      Xml.elem (aNS ++ "theme") [("name", "T")]
        ([Xml.elem (aNS ++ "fontScheme") [] []] ++
         (patchFirstClr [("accent1", "112233")]
           (Xml.elem (aNS ++ "clrScheme") []
             [Xml.elem (aNS ++ "accent1") []
               [Xml.elem (aNS ++ "srgbClr") [("val", "AAAAAA")] []]])).1 ::
         [Xml.elem (aNS ++ "clrScheme") []
           [Xml.elem (aNS ++ "accent1") [] [Xml.elem (aNS ++ "srgbClr") [("val", "BBBBBB")] []]]])
    ∧ updateFirstMatching "accent1" "112233"
        ([Xml.elem (aNS ++ "dk1") [] [Xml.elem (aNS ++ "srgbClr") [("val", "000000")] []]] ++
         Xml.elem (aNS ++ "accent1") [] [Xml.elem (aNS ++ "srgbClr") [("val", "AAAAAA")] []] ::
         [Xml.elem (aNS ++ "accent1") [] [Xml.elem (aNS ++ "srgbClr") [("val", "BBBBBB")] []]]) =
        [Xml.elem (aNS ++ "dk1") [] [Xml.elem (aNS ++ "srgbClr") [("val", "000000")] []]] ++
         setSrgbChild "112233"
           (Xml.elem (aNS ++ "accent1") [] [Xml.elem (aNS ++ "srgbClr") [("val", "AAAAAA")] []]) ::
         [Xml.elem (aNS ++ "accent1") [] [Xml.elem (aNS ++ "srgbClr") [("val", "BBBBBB")] []]] :=
  ⟨(update_theme_first_clrscheme_only [("accent1", "112233")] (aNS ++ "theme") [("name", "T")]
      [Xml.elem (aNS ++ "fontScheme") [] []]
      (Xml.elem (aNS ++ "clrScheme") []
        [Xml.elem (aNS ++ "accent1") [] [Xml.elem (aNS ++ "srgbClr") [("val", "AAAAAA")] []]])
      [Xml.elem (aNS ++ "clrScheme") []
        [Xml.elem (aNS ++ "accent1") [] [Xml.elem (aNS ++ "srgbClr") [("val", "BBBBBB")] []]]]
      "x" "y" [] (Xml.elem "" [] []) []).1 (by decide) (by decide) (by decide),
   (update_theme_first_clrscheme_only [] "" [] [] (Xml.elem "" [] []) []
      "accent1" "112233"
      [Xml.elem (aNS ++ "dk1") [] [Xml.elem (aNS ++ "srgbClr") [("val", "000000")] []]]
      (Xml.elem (aNS ++ "accent1") [] [Xml.elem (aNS ++ "srgbClr") [("val", "AAAAAA")] []])
      [Xml.elem (aNS ++ "accent1") [] [Xml.elem (aNS ++ "srgbClr") [("val", "BBBBBB")] []]]).2
      (by decide) (by decide)⟩

lemma assocLookup_append {α : Type} (n : String) :
    ∀ l1 l2 : List (String × α),
      assocLookup n (l1 ++ l2) =
        (match assocLookup n l1 with
         | some v => some v
         | none => assocLookup n l2) := by
  intro l1 l2
  induction l1 with
  | nil => rfl
  | cons p t ih =>
    obtain ⟨k, v⟩ := p
    have e1 : assocLookup n (((k, v) :: t) ++ l2) =
        (if k = n then some v else assocLookup n (t ++ l2)) := rfl
    have e2 : assocLookup (α := α) n ((k, v) :: t) =
        (if k = n then some v else assocLookup n t) := rfl
    rw [e1, e2]
    split_ifs with hk
    · rfl
    · exact ih

lemma assocLookup_none {α : Type} (n : String) :
    ∀ l : List (String × α), (∀ m ∈ l, m.1 ≠ n) → assocLookup n l = none := by
  intro l
  induction l with
  | nil => intro _; rfl
  | cons p t ih =>
    intro h
    obtain ⟨k, v⟩ := p
    unfold assocLookup
    rw [if_neg (h (k, v) (List.mem_cons_self _ _))]
    exact ih (fun m hm => h m (List.mem_cons_of_mem _ hm))

lemma assocLookup_filter_keep {α : Type} (n : String) (pred : String × α → Bool)
    (hpred : ∀ m : String × α, m.1 = n → pred m = true) :
    ∀ l : List (String × α), assocLookup n (l.filter pred) = assocLookup n l := by
  intro l
  induction l with
  | nil => rfl
  | cons p t ih =>
    obtain ⟨k, v⟩ := p
    have e : ∀ t' : List (String × α), assocLookup n ((k, v) :: t') =
        (if k = n then some v else assocLookup n t') := fun _ => rfl
    by_cases hk : k = n
    · have hp : pred (k, v) = true := hpred (k, v) hk
      rw [List.filter_cons_of_pos hp, e, e, if_pos hk, if_pos hk]
    · cases hp : pred (k, v) with
      | true =>
        rw [List.filter_cons_of_pos hp, e, e, if_neg hk, if_neg hk]
        exact ih
      | false =>
        rw [List.filter_cons_of_neg (by simp [hp]), e, if_neg hk]
        exact ih

lemma listStartsWith_iff_append : ∀ p s : List Char,
    listStartsWith p s = true ↔ ∃ t, s = p ++ t := by
  intro p
  induction p with
  | nil =>
    intro s
    simp [listStartsWith]
  | cons a p ih =>
    intro s
    cases s with
    | nil =>
      constructor
      · intro h
        exact absurd h (by simp [listStartsWith])
      · rintro ⟨t, ht⟩
        exact absurd ht (by simp)
    | cons b s' =>
      have e : listStartsWith (a :: p) (b :: s') = ((a == b) && listStartsWith p s') := rfl
      rw [e, Bool.and_eq_true, beq_iff_eq]
      constructor
      · rintro ⟨rfl, hr⟩
        obtain ⟨t, rfl⟩ := (ih s').mp hr
        exact ⟨t, rfl⟩
      · rintro ⟨t, ht⟩
        obtain ⟨rfl, hs⟩ : b = a ∧ s' = p ++ t := by simpa using ht
        exact ⟨rfl, (ih s').mpr ⟨t, hs⟩⟩

lemma pathInDir_disjoint (n : String) :
    (pathInDir "ppt/theme/" n = true →
      pathInDir "ppt/slideMasters/" n = false ∧ pathInDir "ppt/slideLayouts/" n = false)
    ∧ (pathInDir "ppt/slideLayouts/" n = true →
      pathInDir "ppt/theme/" n = false ∧ pathInDir "ppt/slideMasters/" n = false)
    ∧ (pathInDir "ppt/slideMasters/" n = true →
      pathInDir "ppt/theme/" n = false ∧ pathInDir "ppt/slideLayouts/" n = false) := by
  refine ⟨?_, ?_, ?_⟩
  · intro h
    obtain ⟨t, ht⟩ := (listStartsWith_iff_append _ _).mp h
    constructor
    · show listStartsWith "ppt/slideMasters/".data n.data = false
      rw [ht]
      rfl
    · show listStartsWith "ppt/slideLayouts/".data n.data = false
      rw [ht]
      rfl
  · intro h
    obtain ⟨t, ht⟩ := (listStartsWith_iff_append _ _).mp h
    constructor
    · show listStartsWith "ppt/theme/".data n.data = false
      rw [ht]
      rfl
    · show listStartsWith "ppt/slideMasters/".data n.data = false
      rw [ht]
      rfl
  · intro h
    obtain ⟨t, ht⟩ := (listStartsWith_iff_append _ _).mp h
    constructor
    · show listStartsWith "ppt/theme/".data n.data = false
      rw [ht]
      rfl
    · show listStartsWith "ppt/slideLayouts/".data n.data = false
      rw [ht]
      rfl

lemma any_pathInDir_false {dir : String} {l : List (String × Content)}
    (h : ∀ m ∈ l, pathInDir dir m.1 = false) :
    l.any (fun m => pathInDir dir m.1) = false := by
  cases ha : l.any (fun m => pathInDir dir m.1)
  · rfl
  · obtain ⟨m, hm, hp⟩ := List.any_eq_true.mp ha
    rw [h m hm] at hp
    exact absurd hp (by decide)

lemma replaceSubtree_lookup_other (dir : String) (tmpl l : List (String × Content))
    (n : String) (h : pathInDir dir n = false) :
    assocLookup n (replaceSubtree dir tmpl l) = assocLookup n l := by
  unfold replaceSubtree
  split_ifs with hc
  · rw [assocLookup_append]
    have h1 : assocLookup n (l.filter (fun m => !(pathInDir dir m.1))) = assocLookup n l :=
      assocLookup_filter_keep n _ (fun m hm => by rw [hm, h]; rfl) l
    have h2 : assocLookup n (tmpl.filter (fun m => pathInDir dir m.1)) = none := by
      refine assocLookup_none n _ ?_
      intro m hm he
      have hp : pathInDir dir m.1 = true := (List.mem_filter.mp hm).2
      rw [he, h] at hp
      exact absurd hp (by decide)
    rw [h1, h2]
    cases assocLookup n l <;> rfl
  · rfl

lemma replaceSubtree_lookup_inside (dir : String) (tmpl tgt : List (String × Content))
    (n : String) (hn : pathInDir dir n = true)
    (hin : tmpl.any (fun m => pathInDir dir m.1) = true) :
    assocLookup n (replaceSubtree dir tmpl tgt) = assocLookup n tmpl := by
  unfold replaceSubtree
  rw [if_pos hin, assocLookup_append]
  have h1 : assocLookup n (tgt.filter (fun m => !(pathInDir dir m.1))) = none := by
    refine assocLookup_none n _ ?_
    intro m hm he
    have hp : (!(pathInDir dir m.1)) = true := (List.mem_filter.mp hm).2
    rw [he, hn] at hp
    exact absurd hp (by decide)
  rw [h1]
  show assocLookup n (tmpl.filter (fun m => pathInDir dir m.1)) = assocLookup n tmpl
  exact assocLookup_filter_keep n _ (fun m hm => by rw [hm, hn]) tmpl

lemma replaceSubtree_skip (dir : String) (tmpl l : List (String × Content))
    (h : tmpl.any (fun m => pathInDir dir m.1) = false) :
    replaceSubtree dir tmpl l = l := by
  unfold replaceSubtree
  rw [h]
  rfl

/-- C5.  Copy-mode totality and conditioning: each of the three subtree
replacements is performed exactly when the template contains that subtree.
When the template carries a `ppt/theme/` (resp. `ppt/slideMasters/`,
`ppt/slideLayouts/`) subtree, every member of the output under that
directory — in particular the theme XML — is the template's
(byte-identical contents); when the template carries no such subtree, every
member of the output under that directory is the target's own, untouched.
The `Nodup` hypotheses state the packages have no duplicate member paths,
the condition under which extract-then-rezip preserves members. -/
theorem copy_theme_from_template_spec (tmpl tgt : List (String × Content))
    (hnd1 : (tmpl.map Prod.fst).Nodup) (hnd2 : (tgt.map Prod.fst).Nodup) :
    (∀ n, pathInDir "ppt/theme/" n = true →
      tmpl.any (fun m => pathInDir "ppt/theme/" m.1) = true →
      assocLookup n (copy_theme_from_template tmpl tgt) = assocLookup n tmpl)
    ∧ ((∀ m ∈ tmpl, pathInDir "ppt/slideLayouts/" m.1 = false) →
        ∀ n, pathInDir "ppt/slideLayouts/" n = true →
          assocLookup n (copy_theme_from_template tmpl tgt) = assocLookup n tgt)
    ∧ ((∀ m ∈ tmpl, pathInDir "ppt/theme/" m.1 = false) →
        ∀ n, pathInDir "ppt/theme/" n = true →
          assocLookup n (copy_theme_from_template tmpl tgt) = assocLookup n tgt)
    ∧ (∀ n, pathInDir "ppt/slideMasters/" n = true →
        tmpl.any (fun m => pathInDir "ppt/slideMasters/" m.1) = true →
        assocLookup n (copy_theme_from_template tmpl tgt) = assocLookup n tmpl)
    ∧ ((∀ m ∈ tmpl, pathInDir "ppt/slideMasters/" m.1 = false) →
        ∀ n, pathInDir "ppt/slideMasters/" n = true →
          assocLookup n (copy_theme_from_template tmpl tgt) = assocLookup n tgt)
    ∧ (∀ n, pathInDir "ppt/slideLayouts/" n = true →
        tmpl.any (fun m => pathInDir "ppt/slideLayouts/" m.1) = true →
        assocLookup n (copy_theme_from_template tmpl tgt) = assocLookup n tmpl) := by
  refine ⟨?_, ?_, ?_, ?_, ?_, ?_⟩
  · intro n hn hany
    obtain ⟨hm, hl⟩ := (pathInDir_disjoint n).1 hn
    unfold copy_theme_from_template
    rw [replaceSubtree_lookup_other _ _ _ _ hl, replaceSubtree_lookup_other _ _ _ _ hm,
      replaceSubtree_lookup_inside _ _ _ _ hn hany]
  · intro hno n hn
    obtain ⟨hth, hms⟩ := (pathInDir_disjoint n).2.1 hn
    have hnone := any_pathInDir_false hno
    unfold copy_theme_from_template
    rw [replaceSubtree_skip _ _ _ hnone, replaceSubtree_lookup_other _ _ _ _ hms,
      replaceSubtree_lookup_other _ _ _ _ hth]
  · intro hno n hn
    obtain ⟨hm, hl⟩ := (pathInDir_disjoint n).1 hn
    have hnone := any_pathInDir_false hno
    unfold copy_theme_from_template
    rw [replaceSubtree_lookup_other _ _ _ _ hl, replaceSubtree_lookup_other _ _ _ _ hm,
      replaceSubtree_skip _ _ _ hnone]
  · intro n hn hany
    obtain ⟨hth, hl⟩ := (pathInDir_disjoint n).2.2 hn
    unfold copy_theme_from_template
    rw [replaceSubtree_lookup_other _ _ _ _ hl,
      replaceSubtree_lookup_inside _ _ _ _ hn hany]
  · intro hno n hn
    obtain ⟨hth, hl⟩ := (pathInDir_disjoint n).2.2 hn
    have hnone := any_pathInDir_false hno
    unfold copy_theme_from_template
    rw [replaceSubtree_lookup_other _ _ _ _ hl, replaceSubtree_skip _ _ _ hnone,
      replaceSubtree_lookup_other _ _ _ _ hth]
  · intro n hn hany
    unfold copy_theme_from_template
    rw [replaceSubtree_lookup_inside _ _ _ _ hn hany]

/-- Witness for C5: a template with only a theme member against a target
carrying its own theme and `slideLayouts` members — the theme member
becomes the template's while the layouts member stays the target's; a
template without a theme subtree leaves the target's theme member alone;
and the `slideMasters` and `slideLayouts` replacements fire exactly when
the template carries those subtrees. -/
theorem copy_theme_from_template_spec_witness :
    assocLookup "ppt/theme/theme1.xml"
      (copy_theme_from_template [("ppt/theme/theme1.xml", Content.bin [1])]
        [("ppt/theme/theme1.xml", Content.bin [9]),
         ("ppt/slideLayouts/slideLayout1.xml", Content.bin [2])]) =
      assocLookup "ppt/theme/theme1.xml"
        ([("ppt/theme/theme1.xml", Content.bin [1])] : List (String × Content))
    ∧ assocLookup "ppt/slideLayouts/slideLayout1.xml"
        (copy_theme_from_template [("ppt/theme/theme1.xml", Content.bin [1])]
          [("ppt/theme/theme1.xml", Content.bin [9]),
           ("ppt/slideLayouts/slideLayout1.xml", Content.bin [2])]) =
      assocLookup "ppt/slideLayouts/slideLayout1.xml"
        ([("ppt/theme/theme1.xml", Content.bin [9]),
          ("ppt/slideLayouts/slideLayout1.xml", Content.bin [2])] : List (String × Content))
    ∧ assocLookup "ppt/theme/theme1.xml"
        (copy_theme_from_template [("other.xml", Content.bin [3])]
          [("ppt/theme/theme1.xml", Content.bin [9]),
           ("ppt/slideLayouts/slideLayout1.xml", Content.bin [2])]) =
      assocLookup "ppt/theme/theme1.xml"
        ([("ppt/theme/theme1.xml", Content.bin [9]),
          ("ppt/slideLayouts/slideLayout1.xml", Content.bin [2])] : List (String × Content))
    ∧ assocLookup "ppt/slideMasters/slideMaster1.xml"
        (copy_theme_from_template [("ppt/slideMasters/slideMaster1.xml", Content.bin [4])]
          [("ppt/slideMasters/slideMaster1.xml", Content.bin [5])]) =
      assocLookup "ppt/slideMasters/slideMaster1.xml"
        ([("ppt/slideMasters/slideMaster1.xml", Content.bin [4])] : List (String × Content))
    ∧ assocLookup "ppt/slideMasters/slideMaster1.xml"
        (copy_theme_from_template [("ppt/theme/theme1.xml", Content.bin [1])]
          [("ppt/slideMasters/slideMaster1.xml", Content.bin [5])]) =
      assocLookup "ppt/slideMasters/slideMaster1.xml"
        ([("ppt/slideMasters/slideMaster1.xml", Content.bin [5])] : List (String × Content))
    ∧ assocLookup "ppt/slideLayouts/slideLayout1.xml"
        (copy_theme_from_template [("ppt/slideLayouts/slideLayout1.xml", Content.bin [6])]
          [("ppt/slideLayouts/slideLayout1.xml", Content.bin [7])]) =
      assocLookup "ppt/slideLayouts/slideLayout1.xml"
        ([("ppt/slideLayouts/slideLayout1.xml", Content.bin [6])] : List (String × Content)) :=
  ⟨(copy_theme_from_template_spec [("ppt/theme/theme1.xml", Content.bin [1])]
      [("ppt/theme/theme1.xml", Content.bin [9]),
       ("ppt/slideLayouts/slideLayout1.xml", Content.bin [2])]
      (by decide) (by decide)).1 "ppt/theme/theme1.xml" (by decide) (by decide),
   (copy_theme_from_template_spec [("ppt/theme/theme1.xml", Content.bin [1])]
      [("ppt/theme/theme1.xml", Content.bin [9]),
       ("ppt/slideLayouts/slideLayout1.xml", Content.bin [2])]
      (by decide) (by decide)).2.1 (by decide) "ppt/slideLayouts/slideLayout1.xml" (by decide),
   (copy_theme_from_template_spec [("other.xml", Content.bin [3])]
      [("ppt/theme/theme1.xml", Content.bin [9]),
       ("ppt/slideLayouts/slideLayout1.xml", Content.bin [2])]
      (by decide) (by decide)).2.2.1 (by decide) "ppt/theme/theme1.xml" (by decide),
   (copy_theme_from_template_spec [("ppt/slideMasters/slideMaster1.xml", Content.bin [4])]
      [("ppt/slideMasters/slideMaster1.xml", Content.bin [5])]
      (by decide) (by decide)).2.2.2.1 "ppt/slideMasters/slideMaster1.xml"
      (by decide) (by decide),
   (copy_theme_from_template_spec [("ppt/theme/theme1.xml", Content.bin [1])]
      [("ppt/slideMasters/slideMaster1.xml", Content.bin [5])]
      (by decide) (by decide)).2.2.2.2.1 (by decide) "ppt/slideMasters/slideMaster1.xml"
      (by decide),
   (copy_theme_from_template_spec [("ppt/slideLayouts/slideLayout1.xml", Content.bin [6])]
      [("ppt/slideLayouts/slideLayout1.xml", Content.bin [7])]
      (by decide) (by decide)).2.2.2.2.2 "ppt/slideLayouts/slideLayout1.xml"
      (by decide) (by decide)⟩
